import Mathlib

set_option maxRecDepth 8000

/-! Shallow embedding of the security layer of the `mcp-jsx-prop-analyzer`
repository (input sanitizer, path validator, resource limiter, sandboxed
parser and the composing security context), together with proofs of the
specified properties.  Machine strings are Lean `String`s handled through
their character lists; JS `Set`/`Map` state is explicit; fallible methods
return `Except`; filesystem and parser effects are oracle parameters. -/

/-! ## Character and string utilities (JS semantics, ASCII fragment) -/

/-- Left brace character, produced by code so that no string literal in this
file has to contain a brace. -/
def lbrace : Char := Char.ofNat 123

/-- Right brace character. -/
def rbrace : Char := Char.ofNat 125

/-- Whitespace class of JS regular expressions, restricted to ASCII. -/
def isJsSpace (c : Char) : Bool :=
  c = ' ' || c = '\t' || c = '\n' || c = '\r' || c = Char.ofNat 11 || c = Char.ofNat 12

/-- Word-character class of JS regular expressions: `[A-Za-z0-9_]`. -/
def isWordChar (c : Char) : Bool := c.isAlpha || c.isDigit || c = '_'

/-- Containment of a contiguous character substring: the match semantics of a
regex made only of literal characters. -/
def containsSub (needle : List Char) : List Char → Bool
  | [] => needle.isEmpty
  | c :: rest => needle.isPrefixOf (c :: rest) || containsSub needle rest

/-- Does some suffix of the list satisfy `p`?  This is the existential
semantics of an unanchored regex match. -/
def anySuffix (p : List Char → Bool) : List Char → Bool
  | [] => p []
  | c :: rest => p (c :: rest) || anySuffix p rest

/-- Matches the regex fragment `\s*\(` at the head of the list. -/
def wsThenParen : List Char → Bool
  | [] => false
  | c :: rest => c = '(' || (isJsSpace c && wsThenParen rest)

/-- Matches `kw` followed by `\s*\(` at the head of the list, the shape of the
JS patterns `eval\s*\(`, `Function\s*\(`, `setTimeout\s*\(`, `setInterval\s*\(`. -/
def kwWsParenAt (kw : List Char) (s : List Char) : Bool :=
  kw.isPrefixOf s && wsThenParen (s.drop kw.length)

/-- Unanchored match of `kw` followed by `\s*\(`. -/
def kwWsParen (kw : List Char) (s : List Char) : Bool :=
  anySuffix (kwWsParenAt kw) s

/-- Matches the regex fragment `.*\}` at the head: a right brace occurs before
any newline (the JS dot does not match newlines). -/
def closeBraceBeforeNewline : List Char → Bool
  | [] => false
  | c :: rest =>
      if c = rbrace then true
      else if c = '\n' then false
      else closeBraceBeforeNewline rest

/-- Matches the template-injection pattern `\$\{.*\}` at the head. -/
def templateInjectionAt : List Char → Bool
  | '$' :: c :: rest => c = lbrace && closeBraceBeforeNewline rest
  | _ => false

/-- Matches the regex fragment `\s*=` at the head. -/
def wsThenEq : List Char → Bool
  | [] => false
  | c :: rest => c = '=' || (isJsSpace c && wsThenEq rest)

/-- Matches `\w*\s*=` at the head, with backtracking semantics. -/
def wordStarWsEq : List Char → Bool
  | [] => false
  | c :: rest => wsThenEq (c :: rest) || (isWordChar c && wordStarWsEq rest)

/-- Matches `\w+\s*=` at the head. -/
def wordPlusWsEq : List Char → Bool
  | [] => false
  | c :: rest => isWordChar c && wordStarWsEq rest

/-- Matches the event-handler pattern `on\w+\s*=` at the head (the caller is
expected to pass a lowercased list, giving the `i` flag's semantics). -/
def eventHandlerAt (s : List Char) : Bool :=
  ([ 'o', 'n' ] : List Char).isPrefixOf s && wordPlusWsEq (s.drop 2)

/-- Deny-pattern scan of `InputSanitizer.containsDangerousPatterns`: template
literal injection, dynamic-code call shapes, prototype and constructor access,
parent-path segments, script tags, privileged URL schemes and inline event
handlers, exactly the thirteen JS regexes of the source. -/
def containsDangerousPatterns (input : String) : Bool :=
  let l := input.data
  let low := l.map Char.toLower
  anySuffix templateInjectionAt l ||
  kwWsParen "eval".data l ||
  kwWsParen "Function".data l ||
  kwWsParen "setTimeout".data l ||
  kwWsParen "setInterval".data l ||
  containsSub "__proto__".data l ||
  containsSub "constructor".data l ||
  containsSub "..".data l ||
  containsSub "<script".data low ||
  containsSub "javascript:".data low ||
  containsSub "data:".data low ||
  containsSub "vbscript:".data low ||
  anySuffix eventHandlerAt low

/-! Catastrophic-backtracking deny list of `sanitizeRegexPattern`: the twelve
JS regexes applied to the submitted pattern text. -/

/-- Matches `\d*,\}` at the head; used after one digit has been consumed, so
together this gives `\d+,\}`. -/
def commaCloseAfterDigits : List Char → Bool
  | [] => false
  | c :: rest =>
      (c = ',' && rest.head? = some rbrace) ||
      (c.isDigit && commaCloseAfterDigits rest)

/-- Matches `\{\d+,\}` at the head: a brace-quantifier with no upper bound. -/
def unboundedBraceQuantAt : List Char → Bool
  | c :: d :: rest => c = lbrace && d.isDigit && commaCloseAfterDigits (d :: rest)
  | _ => false

/-- Scans the inside of a group, `[^)]*[+*][^)]*\)`, then demands a character
accepted by `after` right after the closing parenthesis; `seen` records
whether a `+` or `*` has occurred inside the group so far. -/
def groupQuantThen (after : Char → Bool) (seen : Bool) : List Char → Bool
  | [] => false
  | c :: rest =>
      if c = ')' then
        seen && (match rest with | d :: _ => after d | [] => false)
      else groupQuantThen after (seen || c = '+' || c = '*') rest

/-- Matches `\([^)]*[+*][^)]*\)` followed by a character accepted by `after`
at the head (the nested-quantifier shapes `(a+)+` and `(a+)\{`). -/
def nestedQuantAt (after : Char → Bool) : List Char → Bool
  | '(' :: rest => groupQuantThen after false rest
  | _ => false

/-- Scans for the first right brace and demands a comma directly before it:
the tail of the pattern `[+*]\{[^}]*,\}`. -/
def firstCloseCommaBefore (prevComma : Bool) : List Char → Bool
  | [] => false
  | c :: rest =>
      if c = rbrace then prevComma
      else firstCloseCommaBefore (c = ',') rest

/-- Matches `[+*]\{[^}]*,\}` at the head: an unbounded quantifier directly
after a `+` or `*`. -/
def quantOpenBraceAt : List Char → Bool
  | c :: d :: rest =>
      (c = '+' || c = '*') && d = lbrace && firstCloseCommaBefore false rest
  | _ => false

/-- The `dangerousRegexPatterns` list of `sanitizeRegexPattern`: lookaround
markers, adjacent quantifiers, unbounded brace quantifiers, quantified groups
followed by a quantifier or brace, and repeated wildcard sequences. -/
def dangerousRegexTest (pattern : String) : Bool :=
  let l := pattern.data
  containsSub "(?=".data l ||
  containsSub "(?<=".data l ||
  containsSub ("(?".data ++ [ '!' ]) l ||
  containsSub ("(?<".data ++ [ '!' ]) l ||
  containsSub "*+".data l ||
  containsSub "+*".data l ||
  anySuffix unboundedBraceQuantAt l ||
  anySuffix (nestedQuantAt (fun d => d = '+' || d = '*')) l ||
  anySuffix (nestedQuantAt (fun d => d = lbrace)) l ||
  anySuffix quantOpenBraceAt l ||
  containsSub ".*.*".data l ||
  containsSub ".+.+".data l

/-! ## Allow patterns of the sanitizer -/

/-- Splits a character list on a separator character, keeping empty pieces,
like JS `String.prototype.split` with a single-character separator. -/
def splitOnChar (sep : Char) : List Char → List (List Char)
  | [] => [[]]
  | c :: rest =>
      let r := splitOnChar sep rest
      if c = sep then [] :: r
      else
        match r with
        | seg :: segs => (c :: seg) :: segs
        | [] => [[ c ]]

/-- One dot-separated segment of a component name: `[A-Z][a-zA-Z0-9_$]*`. -/
def componentSegOk : List Char → Bool
  | [] => false
  | c :: rest => c.isUpper && rest.all (fun d => d.isAlphanum || d = '_' || d = '$')

/-- The default `allowedComponentNamePattern`
`^[A-Z][a-zA-Z0-9_$]*(\.[A-Z][a-zA-Z0-9_$]*)*$`, phrased as: every
dot-separated segment is a valid component segment. -/
def componentNameOk (s : String) : Bool :=
  (splitOnChar '.' s.data).all componentSegOk

/-- The default `allowedPropNamePattern` `^[a-zA-Z_$][a-zA-Z0-9_$-]*$`. -/
def propNameOk (s : String) : Bool :=
  match s.data with
  | [] => false
  | c :: rest =>
      (c.isAlpha || c = '_' || c = '$') &&
      rest.all (fun d => d.isAlphanum || d = '_' || d = '$' || d = '-')

/-- JS `String.prototype.trim`, restricted to ASCII whitespace. -/
def jsTrim (s : String) : String :=
  String.mk (((s.data.dropWhile isJsSpace).reverse.dropWhile isJsSpace).reverse)

/-- Embedded NUL byte test. -/
def containsNul (s : String) : Bool := s.data.contains (Char.ofNat 0)

/-! ## JS values and the input sanitizer -/

/-- Dynamically typed JS value, as far as the sanitizer inspects one.  JS
numbers are split into finite values (modelled as integers), `NaN` and
infinities, which is exactly the granularity `Number.isFinite` and truthiness
distinguish here. -/
inductive JSValue where
  | str (s : String)
  | num (n : Int)
  | nan
  | infinity
  | bool (b : Bool)
  | null
  | undefined
  | arr (items : List JSValue)
  | obj (fields : List (String × JSValue))
  | func

/-- JS truthiness of a value. -/
def jsTruthy : JSValue → Bool
  | .str s => decide (s ≠ "")
  | .num n => decide (n ≠ 0)
  | .nan => false
  | .infinity => true
  | .bool b => b
  | .null => false
  | .undefined => false
  | .arr _ => true
  | .obj _ => true
  | .func => true

/-- Truthiness of a possibly absent parameter field. -/
def presentTruthy : Option JSValue → Bool
  | none => false
  | some v => jsTruthy v

/-- Error codes carried by `InputSanitizationError`. -/
inductive SanCode where
  | INVALID_TYPE
  | EMPTY_VALUE
  | TOO_LONG
  | INVALID_FORMAT
  | DANGEROUS_PATTERN
  | NULL_BYTE
  | MISSING_REQUIRED
  | INVALID_NUMBER
  | ARRAY_TOO_LONG
  | OBJECT_TOO_LARGE
  | UNSUPPORTED_TYPE
  | INVALID_REGEX
  | DANGEROUS_REGEX
  deriving DecidableEq

/-- Configuration of `InputSanitizer`; the default field patterns are fixed
to the source defaults and embedded as the predicates above. -/
structure InputSanitizer where
  maxStringLength : Nat
  maxArrayLength : Nat
  deriving DecidableEq

/-- The default-constructed `InputSanitizer`. -/
def defaultSanitizer : InputSanitizer := { maxStringLength := 1000, maxArrayLength := 100 }

namespace InputSanitizer

/-- Method `sanitizeString` with default options (`trim` on, dangerous
patterns not allowed, `maxLength` defaulted): type check, max-length check,
NUL check, deny-pattern scan, trim. -/
def sanitizeString (san : InputSanitizer) : JSValue → Except SanCode String
  | .str s =>
      if s.length > san.maxStringLength then .error .TOO_LONG
      else if containsNul s then .error .NULL_BYTE
      else if containsDangerousPatterns s then .error .DANGEROUS_PATTERN
      else .ok (jsTrim s)
  | _ => .error .INVALID_TYPE

/-- Method `sanitizeComponentName`: type check, non-empty check, max-length
check, allow-pattern match, deny-pattern scan, trim — in that source order. -/
def sanitizeComponentName (san : InputSanitizer) : JSValue → Except SanCode String
  | .str s =>
      if s.length = 0 then .error .EMPTY_VALUE
      else if s.length > san.maxStringLength then .error .TOO_LONG
      else if !componentNameOk s then .error .INVALID_FORMAT
      else if containsDangerousPatterns s then .error .DANGEROUS_PATTERN
      else .ok (jsTrim s)
  | _ => .error .INVALID_TYPE

/-- Method `sanitizePropName`: same phase order with the prop-name pattern. -/
def sanitizePropName (san : InputSanitizer) : JSValue → Except SanCode String
  | .str s =>
      if s.length = 0 then .error .EMPTY_VALUE
      else if s.length > san.maxStringLength then .error .TOO_LONG
      else if !propNameOk s then .error .INVALID_FORMAT
      else if containsDangerousPatterns s then .error .DANGEROUS_PATTERN
      else .ok (jsTrim s)
  | _ => .error .INVALID_TYPE

/-- Method `sanitizeRegexPattern`.  Compilation of the pattern by the JS
regex engine (`new RegExp`) is an external effect, passed in as the validity
oracle `rv`; the deny list is `dangerousRegexTest`.  An accepted pattern is
returned unchanged. -/
def sanitizeRegexPattern (san : InputSanitizer) (rv : String → Bool) :
    JSValue → Except SanCode String
  | .str p =>
      if p.length > san.maxStringLength then .error .TOO_LONG
      else if !rv p then .error .INVALID_REGEX
      else if dangerousRegexTest p then .error .DANGEROUS_REGEX
      else .ok p
  | _ => .error .INVALID_TYPE

mutual

/-- Method `sanitizePropValue` with default options (objects allowed):
`null`/`undefined`/booleans/finite numbers pass through, non-finite numbers
are rejected, strings route through `sanitizeString`, arrays and object
key-sets are bounded by `maxArrayLength` and recursively sanitized, and any
other shape is rejected as unsupported. -/
def sanitizePropValue (san : InputSanitizer) : JSValue → Except SanCode JSValue
  | .null => .ok .null
  | .undefined => .ok .undefined
  | .bool b => .ok (.bool b)
  | .num n => .ok (.num n)
  | .nan => .error .INVALID_NUMBER
  | .infinity => .error .INVALID_NUMBER
  | .str s => (san.sanitizeString (.str s)).map .str
  | .arr items =>
      if items.length > san.maxArrayLength then .error .ARRAY_TOO_LONG
      else (sanitizeItems san items).map .arr
  | .obj fields =>
      if fields.length > san.maxArrayLength then .error .OBJECT_TOO_LARGE
      else (sanitizeFields san fields).map .obj
  | .func => .error .UNSUPPORTED_TYPE

/-- Array branch of `sanitizePropValue`: element-wise recursion, failing at
the first bad element. -/
def sanitizeItems (san : InputSanitizer) : List JSValue → Except SanCode (List JSValue)
  | [] => .ok []
  | v :: rest => do
      let v' ← sanitizePropValue san v
      let rest' ← sanitizeItems san rest
      pure (v' :: rest')

/-- Object branch of `sanitizePropValue`: each key is sanitized as a string,
then its value recursively. -/
def sanitizeFields (san : InputSanitizer) :
    List (String × JSValue) → Except SanCode (List (String × JSValue))
  | [] => .ok []
  | (k, v) :: rest => do
      let k' ← san.sanitizeString (.str k)
      let v' ← sanitizePropValue san v
      let rest' ← sanitizeFields san rest
      pure ((k', v') :: rest')

end

end InputSanitizer

/-- Raw parameter bag accepted by `sanitizeAnalyzeParams`; `none` is an
absent property (indistinguishable from an explicit `undefined` for every
check the source performs). -/
structure RawParams where
  rootDir : Option JSValue
  componentName : Option JSValue
  propName : Option JSValue
  propValue : Option JSValue
  findMissing : Option JSValue
  verbose : Option JSValue
  includes : Option JSValue

/-- Sanitized parameter bag produced by `sanitizeAnalyzeParams`. -/
structure SanitizedParams where
  rootDir : String
  componentName : String
  propName : String
  propValue : Option JSValue
  findMissing : Option Bool
  verbose : Option Bool
  includes : Option Bool

/-- Flag-shaped optional field: skipped when absent or `undefined`, must be a
boolean otherwise. -/
def sanitizeFlag : Option JSValue → Except SanCode (Option Bool)
  | none => .ok none
  | some .undefined => .ok none
  | some (.bool b) => .ok (some b)
  | some _ => .error .INVALID_TYPE

namespace InputSanitizer

/-- Method `sanitizeAnalyzeParams`: required-field presence (JS truthiness),
then `rootDir` through `sanitizeString`, `componentName` and `propName`
through their field validators, then the optional fields. -/
def sanitizeAnalyzeParams (san : InputSanitizer) (p : RawParams) :
    Except SanCode SanitizedParams :=
  if !presentTruthy p.rootDir then .error .MISSING_REQUIRED
  else if !presentTruthy p.componentName then .error .MISSING_REQUIRED
  else if !presentTruthy p.propName then .error .MISSING_REQUIRED
  else do
    let rootDir ← san.sanitizeString (p.rootDir.getD .undefined)
    let componentName ← san.sanitizeComponentName (p.componentName.getD .undefined)
    let propName ← san.sanitizePropName (p.propName.getD .undefined)
    let propValue ←
      match p.propValue with
      | none => pure none
      | some .undefined => pure none
      | some .null => pure none
      | some v => (san.sanitizePropValue v).map some
    let findMissing ← sanitizeFlag p.findMissing
    let verbose ← sanitizeFlag p.verbose
    let includes ← sanitizeFlag p.includes
    pure { rootDir := rootDir, componentName := componentName, propName := propName,
           propValue := propValue, findMissing := findMissing, verbose := verbose,
           includes := includes }

end InputSanitizer


/-! ## Path model (Node `path` on POSIX) and the path validator -/

/-- Splits a path string into raw segments on `/`. -/
def splitSegs (s : String) : List (List Char) :=
  splitOnChar '/' s.data

/-- Processes path segments against an accumulator of already-resolved
segments: empty and `.` segments vanish, `..` pops one segment (and is
dropped at the root), others are appended — Node `path.resolve`'s
normalization for absolute paths. -/
def resolveSegs (acc : List (List Char)) : List (List Char) → List (List Char)
  | [] => acc
  | seg :: rest =>
      if seg = [] then resolveSegs acc rest
      else if seg = [ '.' ] then resolveSegs acc rest
      else if seg = [ '.', '.' ] then resolveSegs acc.dropLast rest
      else resolveSegs (acc ++ [ seg ]) rest

/-- Joins segments with `/` separators. -/
def joinSegs : List (List Char) → List Char
  | [] => []
  | [ seg ] => seg
  | seg :: rest => seg ++ '/' :: joinSegs rest

/-- Absolute-path test, `path.isAbsolute` on POSIX. -/
def pathIsAbsolute (s : String) : Bool :=
  match s.data with
  | '/' :: _ => true
  | _ => false

/-- Node `path.resolve(cwd, p)` on POSIX: resolve against the (absolute)
working directory unless `p` is already absolute, normalizing `.`/`..`/empty
segments away; also covers the `path.normalize` the source applies first,
since the two compose to this. -/
def pathResolve (cwd p : String) : String :=
  let segs :=
    if pathIsAbsolute p then resolveSegs [] (splitSegs p)
    else resolveSegs [] (splitSegs cwd ++ splitSegs p)
  String.mk ('/' :: joinSegs segs)

/-- Length of the longest common prefix of two segment lists. -/
def commonPrefixLen : List (List Char) → List (List Char) → Nat
  | a :: as, b :: bs => if a = b then commonPrefixLen as bs + 1 else 0
  | _, _ => 0

/-- Node `path.relative(from, to)` on POSIX for absolute arguments: strip the
common prefix, then one `..` per remaining `from` segment followed by the
remaining `to` segments. -/
def pathRelative (f t : String) : String :=
  let fs := resolveSegs [] (splitSegs f)
  let ts := resolveSegs [] (splitSegs t)
  let c := commonPrefixLen fs ts
  String.mk (joinSegs (List.replicate (fs.length - c) [ '.', '.' ] ++ ts.drop c))

/-- The containment test of `validatePath` for one allowed root: the relative
path from the root must not start with `..` and must not be absolute. -/
def isWithinRoot (root target : String) : Bool :=
  let rel := pathRelative root target
  !(("..".data).isPrefixOf rel.data) && !pathIsAbsolute rel

/-- Filesystem oracle: existence, symbolic-link test, and real-path
resolution (`none` models a `realpathSync` failure). -/
structure FsOracle where
  pathExists : String → Bool
  isSymlink : String → Bool
  realpath : String → Option String

/-- Error codes carried by `PathValidationError`. -/
inductive PathCode where
  | INVALID_INPUT
  | NULL_BYTE_DETECTED
  | PATH_TOO_LONG
  | SYMLINK_ERROR
  | PATH_TRAVERSAL_DETECTED
  | PATH_NOT_FOUND
  deriving DecidableEq

/-- Configuration of `PathValidator`; `allowedRoots` already hold the
`path.resolve`d form, as the constructor normalizes them. -/
structure PathValidator where
  allowedRoots : List String
  maxPathLength : Nat
  resolveSymlinks : Bool
  requireExists : Bool

/-- The `PathValidator` constructor with default `maxPathLength`,
symlink-resolution on and existence not required, resolving each allowed root
against the working directory. -/
def mkPathValidator (cwd : String) (roots : List String) : PathValidator :=
  { allowedRoots := roots.map (pathResolve cwd), maxPathLength := 4096,
    resolveSymlinks := true, requireExists := false }

namespace PathValidator

/-- The resolved-then-symlink-resolved target `validatePath` checks for
containment: `none` when following the symbolic link fails. -/
def resolvedTarget (v : PathValidator) (fso : FsOracle) (cwd inputPath : String) :
    Option String :=
  let resolved := pathResolve cwd inputPath
  if v.resolveSymlinks && fso.pathExists resolved && fso.isSymlink resolved then
    fso.realpath resolved
  else some resolved

/-- Method `validatePath`: input validation (non-empty string, no NUL bytes,
length bound), resolution, optional one-layer symlink resolution, containment
in some allowed root, optional existence check.  The filesystem is only
consulted through `fso`, after the three input checks. -/
def validatePath (v : PathValidator) (fso : FsOracle) (cwd inputPath : String)
    (optRequireExists : Bool) : Except PathCode String :=
  if inputPath = "" then .error .INVALID_INPUT
  else if containsNul inputPath then .error .NULL_BYTE_DETECTED
  else if inputPath.length > v.maxPathLength then .error .PATH_TOO_LONG
  else
    match v.resolvedTarget fso cwd inputPath with
    | none => .error .SYMLINK_ERROR
    | some target =>
        if v.allowedRoots.any (fun root => isWithinRoot root target) then
          if (v.requireExists || optRequireExists) && !fso.pathExists target then
            .error .PATH_NOT_FOUND
          else .ok target
        else .error .PATH_TRAVERSAL_DETECTED

end PathValidator

/-! ## Security context -/

/-- Combined error raised by the security context's validate-and-sanitize
entry point: either an `InputSanitizationError` or a `PathValidationError`. -/
inductive SecError where
  | san (code : SanCode)
  | path (code : PathCode)
  deriving DecidableEq

/-- Method `validateAndSanitize` of `createSecurityContext`: sanitize the
parameter bag first, then validate and normalize its root path with
existence required, returning the bag with the validated absolute root. -/
def validateAndSanitize (san : InputSanitizer) (pv : PathValidator)
    (fso : FsOracle) (cwd : String) (params : RawParams) :
    Except SecError SanitizedParams :=
  match san.sanitizeAnalyzeParams params with
  | .error e => .error (.san e)
  | .ok sp =>
      match pv.validatePath fso cwd sp.rootDir true with
      | .error e => .error (.path e)
      | .ok vp => .ok { sp with rootDir := vp }

/-- Filesystem oracle of the repository checkout as far as the end-to-end
claim consults it: the `test` directory under the working directory exists
and nothing is a symbolic link. -/
def repoFs (cwd : String) : FsOracle :=
  { pathExists := fun p => p = pathResolve cwd "./test",
    isSymlink := fun _ => false,
    realpath := fun p => some p }


/-! ## Resource limiter -/

/-- Error codes carried by `ResourceLimitError`. -/
inductive ResCode where
  | FILE_TOO_LARGE
  | TOTAL_SIZE_EXCEEDED
  | FILE_ACCESS_ERROR
  | TOO_MANY_OPERATIONS
  | OPERATION_TIMEOUT
  | TOO_MANY_FILES
  | AST_TOO_DEEP
  | AST_TOO_COMPLEX
  | DIRECTORY_TOO_DEEP
  | TOO_MANY_DIRECTORIES
  | CODE_TOO_LARGE
  deriving DecidableEq

/-- A `ResourceLimitError`: its code together with the configured limit and
the observed value (absent where the source passes `null`). -/
structure ResErr where
  code : ResCode
  limit : Option Nat
  current : Option Nat
  deriving DecidableEq

/-- The configured ceilings of a `ResourceLimiter`. -/
structure LimiterConfig where
  maxFileSize : Nat
  maxTotalFileSize : Nat
  maxProcessingTime : Nat
  maxFileCount : Nat
  maxConcurrentOperations : Nat
  maxMemoryUsage : Nat
  maxASTDepth : Nat
  maxASTNodes : Nat
  maxDirectoryDepth : Nat
  maxDirectoriesScanned : Nat
  deriving DecidableEq

/-- The default-constructed limiter ceilings. -/
def defaultLimiterConfig : LimiterConfig :=
  { maxFileSize := 10 * 1024 * 1024, maxTotalFileSize := 100 * 1024 * 1024,
    maxProcessingTime := 30 * 1000, maxFileCount := 1000,
    maxConcurrentOperations := 5, maxMemoryUsage := 500 * 1024 * 1024,
    maxASTDepth := 50, maxASTNodes := 10000,
    maxDirectoryDepth := 20, maxDirectoriesScanned := 5000 }

/-- Insertion into a JS `Set` kept as an insertion-ordered duplicate-free
list: adding an existing member is a no-op. -/
def setAdd (s : List String) (x : String) : List String :=
  if x ∈ s then s else s ++ [ x ]

/-- Deletion from a JS `Set`. -/
def setDelete (s : List String) (x : String) : List String :=
  s.filter (fun y => y ≠ x)

/-- JS `Map.get` on an association list (first match wins; keys are unique
under the `mapSet` discipline). -/
def mapLookup : List (String × Nat) → String → Option Nat
  | [], _ => none
  | p :: rest, k => if p.1 = k then some p.2 else mapLookup rest k

/-- JS `Map.set`: overwrite in place when the key exists, append otherwise. -/
def mapSet (m : List (String × Nat)) (k : String) (v : Nat) : List (String × Nat) :=
  if (mapLookup m k).isSome then m.map (fun p => if p.1 = k then (k, v) else p)
  else m ++ [ (k, v) ]

/-- JS `Map.delete`. -/
def mapDelete (m : List (String × Nat)) (k : String) : List (String × Nat) :=
  m.filter (fun p => p.1 ≠ k)

/-- The mutable usage ledger of a `ResourceLimiter` (the fields the modelled
operations touch; the memory sampler and directory depth map are advisory
telemetry the claims never consult). -/
structure LimiterState where
  currentOperations : List String
  operationStartTimes : List (String × Nat)
  totalFilesProcessed : Nat
  totalSizeProcessed : Nat
  directoriesScanned : Nat
  deriving DecidableEq

/-- The ledger of a freshly constructed limiter. -/
def emptyLimiterState : LimiterState :=
  { currentOperations := [], operationStartTimes := [],
    totalFilesProcessed := 0, totalSizeProcessed := 0, directoriesScanned := 0 }

namespace ResourceLimiter

/-- Method `startOperation` with an explicit identifier (the source generates
a fresh random one when none is supplied) at clock reading `now`: rejects
once the active-set size has reached `maxConcurrentOperations`, otherwise
records the identifier and its start time.  On rejection the ledger is
untouched. -/
def startOperation (cfg : LimiterConfig) (st : LimiterState) (opId : String)
    (now : Nat) : Except ResErr LimiterState :=
  if st.currentOperations.length ≥ cfg.maxConcurrentOperations then
    .error { code := .TOO_MANY_OPERATIONS, limit := some cfg.maxConcurrentOperations,
             current := some st.currentOperations.length }
  else
    .ok { st with currentOperations := setAdd st.currentOperations opId,
                  operationStartTimes := mapSet st.operationStartTimes opId now }

/-- Method `endOperation`: removes the identifier from the active set and the
start-time map (a no-op on an unknown identifier). -/
def endOperation (st : LimiterState) (opId : String) : LimiterState :=
  { st with currentOperations := setDelete st.currentOperations opId,
            operationStartTimes := mapDelete st.operationStartTimes opId }

/-- Method `recordFileProcessed`: increments the file and byte counters
first, then checks the file-count ceiling, so the crossing call is still
counted; the mutated ledger is returned alongside the possible error. -/
def recordFileProcessed (cfg : LimiterConfig) (st : LimiterState)
    (size : Nat) : LimiterState × Option ResErr :=
  let st' := { st with totalFilesProcessed := st.totalFilesProcessed + 1,
                       totalSizeProcessed := st.totalSizeProcessed + size }
  (st',
   if st'.totalFilesProcessed > cfg.maxFileCount then
     some { code := .TOO_MANY_FILES, limit := some cfg.maxFileCount,
            current := some st'.totalFilesProcessed }
   else none)

/-- Method `reset`: zeroes the throughput counters and deliberately leaves
the active operations untouched. -/
def resetUsage (st : LimiterState) : LimiterState :=
  { st with totalFilesProcessed := 0, totalSizeProcessed := 0, directoriesScanned := 0 }

/-- Method `checkFileSize` against a stat result (`none` models a stat
failure): per-file ceiling, then the cumulative ceiling.  Pure check — the
ledger is not mutated. -/
def checkFileSize (cfg : LimiterConfig) (st : LimiterState)
    (statSize : Option Nat) : Option ResErr :=
  match statSize with
  | none => some { code := .FILE_ACCESS_ERROR, limit := none, current := none }
  | some fileSize =>
      if fileSize > cfg.maxFileSize then
        some { code := .FILE_TOO_LARGE, limit := some cfg.maxFileSize,
               current := some fileSize }
      else if st.totalSizeProcessed + fileSize > cfg.maxTotalFileSize then
        some { code := .TOTAL_SIZE_EXCEEDED, limit := some cfg.maxTotalFileSize,
               current := some (st.totalSizeProcessed + fileSize) }
      else none

end ResourceLimiter

/-! ## AST structural validation -/

/-- A syntax tree as `validateAST` walks one: each node's relevant content is
the list of typed child nodes it reaches, whether held directly in a field or
as elements of an array field (untyped values are skipped by the source and
so are not represented). -/
inductive ASTNode where
  | mk (children : List ASTNode)

/-- The `{ nodeCount, maxDepth }` record `validateAST` returns. -/
structure ASTStats where
  nodeCount : Nat
  maxDepth : Nat
  deriving DecidableEq

mutual

/-- The inner `traverse` of `validateAST` on one node: walks its children,
incrementing the running node count per typed child, aborting the instant the
count exceeds `maxNodes`.  The depth counter `curDepth` is threaded exactly
as in the source: passed down incremented, never compared to any ceiling. -/
def traverseNode (maxNodes : Nat) (cnt : Nat) (curDepth : Nat) :
    ASTNode → Except ResErr Nat
  | .mk children => traverseChildren maxNodes cnt curDepth children

/-- Child-list walk of `traverse`. -/
def traverseChildren (maxNodes : Nat) (cnt : Nat) (curDepth : Nat) :
    List ASTNode → Except ResErr Nat
  | [] => .ok cnt
  | c :: rest =>
      if cnt + 1 > maxNodes then
        .error { code := .AST_TOO_COMPLEX, limit := some maxNodes,
                 current := some (cnt + 1) }
      else
        match traverseNode maxNodes (cnt + 1) (curDepth + 1) c with
        | .error e => .error e
        | .ok cnt2 => traverseChildren maxNodes cnt2 curDepth rest

end

/-- Method `validateAST`: rejects when the starting `depth` argument exceeds
`maxASTDepth`, then runs the counting walk from node count 1, and reports the
starting depth back as `maxDepth`. -/
def ResourceLimiter.validateAST (cfg : LimiterConfig) (ast : ASTNode)
    (depth : Nat) : Except ResErr ASTStats :=
  if depth > cfg.maxASTDepth then
    .error { code := .AST_TOO_DEEP, limit := some cfg.maxASTDepth,
             current := some depth }
  else
    match traverseNode cfg.maxASTNodes 1 depth ast with
    | .error e => .error e
    | .ok n => .ok { nodeCount := n, maxDepth := depth }

mutual

/-- Depth of a tree in edges: a childless node has depth 0. -/
def astDepth : ASTNode → Nat
  | .mk children => astDepthList children

/-- One plus the largest child depth, 0 for no children. -/
def astDepthList : List ASTNode → Nat
  | [] => 0
  | c :: rest => max (astDepth c + 1) (astDepthList rest)

end

mutual

/-- Total number of nodes of a tree. -/
def astSize : ASTNode → Nat
  | .mk children => 1 + astSizeList children

/-- Total number of nodes of a forest. -/
def astSizeList : List ASTNode → Nat
  | [] => 0
  | c :: rest => astSize c + astSizeList rest

end

/-- A linear chain: `chainAST n` has depth `n` and `n + 1` nodes. -/
def chainAST : Nat → ASTNode
  | 0 => .mk []
  | n + 1 => .mk [ chainAST n ]

/-! ## Sandboxed parser -/

/-- Error codes carried by `ParserError`. -/
inductive PCode where
  | NULL_BYTES_DETECTED
  | LINE_TOO_LONG
  | PARSE_TIMEOUT
  | PARSE_FAILED
  | PARSE_FAILED_RETRY
  | RESOURCE_LIMIT_EXCEEDED
  | PARSE_ERROR
  deriving DecidableEq

/-- Modelled from the spec: the tail of `validateCodeSafety` (missing from
the provided source, which breaks off inside the method) performs a secondary
scan for suspicious syntactic constructs that is informational only and
"must not block parsing", so it contributes nothing to the result. -/
def suspiciousScanBlocks : Bool := false

/-- Method `validateCodeSafety`: rejects embedded NUL bytes, then any single
line over 10000 characters; the trailing informational scan never rejects. -/
def validateCodeSafety (code : String) : Option PCode :=
  if containsNul code then some .NULL_BYTES_DETECTED
  else if (splitOnChar '\n' code.data).any (fun l => l.length > 10000) then
    some .LINE_TOO_LONG
  else if suspiciousScanBlocks then some .PARSE_ERROR
  else none

/-- Error escaping a `parseFile` call: a `ResourceLimitError` thrown by
admission before the `try` block (and so not wrapped), a `ResourceLimitError`
caught inside it and re-wrapped as a `RESOURCE_LIMIT_EXCEEDED` parser error
carrying its cause, or a plain `ParserError`. -/
inductive SPError where
  | admission (e : ResErr)
  | resourceWrapped (e : ResErr)
  | parserErr (code : PCode)
  deriving DecidableEq

/-- External effects one `parseFile` call observes: whether the path exists
on disk, the stat size used by `checkFileSize`, and the outcome of
`parseWithTimeout` (the babel parse with deadline and permissive retry, an
external function of the source text). -/
structure ParseOracles where
  fileExists : Bool
  statSize : Option Nat
  parseOutcome : Except PCode ASTNode

/-- A successful `parseFile` result, as far as the claims consult it. -/
structure ParseSuccess where
  ast : ASTNode
  stats : ASTStats
  isInMemory : Bool

/-- Body of the `try` block of `parseFile`, from the in-memory/file size
check through safety prechecks, the deadline-raced parse, structural
validation and success recording, with `ResourceLimitError`s re-wrapped as
the `catch` clause does.  Returns the result together with the ledger. -/
def SandboxedParser.parseFileTry (cfg : LimiterConfig) (st1 : LimiterState)
    (code : String) (inMemoryOpt : Option Bool) (orc : ParseOracles) :
    Except SPError ParseSuccess × LimiterState :=
  let isInMemory := decide (inMemoryOpt ≠ some false) && !orc.fileExists
  let sizeErr : Option ResErr :=
    if !isInMemory then ResourceLimiter.checkFileSize cfg st1 orc.statSize
    else if code.length > cfg.maxFileSize then
      some { code := .CODE_TOO_LARGE, limit := some cfg.maxFileSize,
             current := some code.length }
    else none
  match sizeErr with
  | some e => (.error (.resourceWrapped e), st1)
  | none =>
      match validateCodeSafety code with
      | some pc => (.error (.parserErr pc), st1)
      | none =>
          match orc.parseOutcome with
          | .error pc => (.error (.parserErr pc), st1)
          | .ok ast =>
              match ResourceLimiter.validateAST cfg ast 0 with
              | .error e => (.error (.resourceWrapped e), st1)
              | .ok stats =>
                  match ResourceLimiter.recordFileProcessed cfg st1 code.length with
                  | (st2, some e) => (.error (.resourceWrapped e), st2)
                  | (st2, none) =>
                      (.ok { ast := ast, stats := stats, isInMemory := isInMemory }, st2)

/-- Method `parseFile`: registers one limiter operation before the `try`
block (a rejection there escapes unwrapped with the ledger untouched), runs
the body, and releases the operation in `finally` on every exit path. -/
def SandboxedParser.parseFile (cfg : LimiterConfig) (st : LimiterState)
    (opId : String) (now : Nat) (code : String) (inMemoryOpt : Option Bool)
    (orc : ParseOracles) : Except SPError ParseSuccess × LimiterState :=
  match ResourceLimiter.startOperation cfg st opId now with
  | .error e => (.error (.admission e), st)
  | .ok st1 =>
      let r := SandboxedParser.parseFileTry cfg st1 code inMemoryOpt orc
      (r.1, ResourceLimiter.endOperation r.2 opId)

/-! ## Theorems about the input sanitizer -/

/-- Decidable equality of `Except` results, used to evaluate the embedded
functions at concrete inputs. -/
instance exceptDecEq {ε α : Type} [DecidableEq ε] [DecidableEq α] :
    DecidableEq (Except ε α) := fun a b =>
  match a, b with
  | .error x, .error y =>
      if h : x = y then .isTrue (by rw [h])
      else .isFalse (by intro hc; injection hc; contradiction)
  | .ok x, .ok y =>
      if h : x = y then .isTrue (by rw [h])
      else .isFalse (by intro hc; injection hc; contradiction)
  | .error _, .ok _ => .isFalse (by intro hc; exact Except.noConfusion hc)
  | .ok _, .error _ => .isFalse (by intro hc; exact Except.noConfusion hc)

/-- Evaluation of `sanitizeRegexPattern` on a pattern that is short enough
and compiles: the result depends only on the backtracking deny list. -/
theorem sanitizeRegexPattern_eval (san : InputSanitizer) (rv : String → Bool)
    (p : String) (hlen : ¬ p.length > san.maxStringLength)
    (hrv : rv p = true) :
    san.sanitizeRegexPattern rv (.str p) =
      if dangerousRegexTest p then .error .DANGEROUS_REGEX else .ok p := by
  unfold InputSanitizer.sanitizeRegexPattern
  dsimp only
  rw [if_neg hlen]
  simp [hrv]

/-- C8: `sanitizeRegexPattern("(a+)+b")` raises `DangerousContent` (the
`DANGEROUS_REGEX` deny-list rejection), `sanitizeRegexPattern("^[a-zA-Z]+$")`
returns the pattern unchanged, and the function is idempotent: whenever it
accepts a pattern, applying it again to the returned value yields the same
value.  The JS regex-compilation step is the validity oracle `rv`. -/
theorem sanitizeRegexPattern_spec (rv : String → Bool)
    (h1 : rv "(a+)+b" = true) (h2 : rv "^[a-zA-Z]+$" = true) :
    defaultSanitizer.sanitizeRegexPattern rv (.str "(a+)+b") = .error .DANGEROUS_REGEX ∧
    defaultSanitizer.sanitizeRegexPattern rv (.str "^[a-zA-Z]+$") = .ok "^[a-zA-Z]+$" ∧
    (∀ p q : String, defaultSanitizer.sanitizeRegexPattern rv (.str p) = .ok q →
       defaultSanitizer.sanitizeRegexPattern rv (.str q) = .ok q) := by
  refine ⟨?_, ?_, ?_⟩
  · rw [sanitizeRegexPattern_eval defaultSanitizer rv _ (by decide) h1,
        if_pos (show dangerousRegexTest "(a+)+b" = true by decide)]
  · rw [sanitizeRegexPattern_eval defaultSanitizer rv _ (by decide) h2,
        if_neg (show ¬ dangerousRegexTest "^[a-zA-Z]+$" = true by decide)]
  · intro p q h
    simp only [InputSanitizer.sanitizeRegexPattern] at h ⊢
    split at h
    · exact absurd h (by simp)
    · split at h
      · exact absurd h (by simp)
      · split at h
        · exact absurd h (by simp)
        · obtain rfl : p = q := by injection h
          simp_all

/-- Witness for C8 at the always-valid regex oracle. -/
theorem sanitizeRegexPattern_spec_witness :
    defaultSanitizer.sanitizeRegexPattern (fun _ => true) (.str "(a+)+b")
      = .error .DANGEROUS_REGEX ∧
    defaultSanitizer.sanitizeRegexPattern (fun _ => true) (.str "^[a-zA-Z]+$")
      = .ok "^[a-zA-Z]+$" :=
  ⟨(sanitizeRegexPattern_spec (fun _ => true) rfl rfl).1,
   (sanitizeRegexPattern_spec (fun _ => true) rfl rfl).2.1⟩

/-- C9, counterexample: `sanitizeComponentName("<script>alert(1)</script>")`
fails the allow-pattern check and raises `INVALID_FORMAT` — an `InvalidInput`
rejection — not the claimed `DangerousContent` (`DANGEROUS_PATTERN`) one,
because the allow-pattern match runs before the deny-pattern scan. -/
theorem sanitizeComponentName_script_counterexample :
    defaultSanitizer.sanitizeComponentName (.str "<script>alert(1)</script>")
      = .error .INVALID_FORMAT ∧
    defaultSanitizer.sanitizeComponentName (.str "<script>alert(1)</script>")
      ≠ .error .DANGEROUS_PATTERN := by
  refine ⟨by decide, by decide⟩

/-- C9, amended: any non-empty component name within the length bound that
fails the allow pattern is rejected as `INVALID_FORMAT` (the deny-pattern
scan is never consulted, so `"<script>alert(1)</script>"` raises
`INVALID_FORMAT`, not `DANGEROUS_PATTERN`), while `"MyComponent"` is
returned unchanged; the phases run in the source order type check →
non-empty check → max-length check → allow-pattern match → deny-pattern
scan → trim. -/
theorem sanitizeComponentName_order (s : String)
    (hne : s.length ≠ 0)
    (hlen : ¬ s.length > defaultSanitizer.maxStringLength)
    (hfmt : componentNameOk s = false) :
    defaultSanitizer.sanitizeComponentName (.str s) = .error .INVALID_FORMAT ∧
    defaultSanitizer.sanitizeComponentName (.str "<script>alert(1)</script>")
      = .error .INVALID_FORMAT ∧
    defaultSanitizer.sanitizeComponentName (.str "MyComponent") = .ok "MyComponent" := by
  refine ⟨?_, by decide, by decide⟩
  unfold InputSanitizer.sanitizeComponentName
  dsimp only
  rw [if_neg hne, if_neg hlen, if_pos (show (!componentNameOk s) = true by simp [hfmt])]

/-- Witness for C9's amended theorem at the script-tag input. -/
theorem sanitizeComponentName_order_witness :
    defaultSanitizer.sanitizeComponentName (.str "<script>alert(1)</script>")
      = .error .INVALID_FORMAT ∧
    defaultSanitizer.sanitizeComponentName (.str "MyComponent") = .ok "MyComponent" :=
  ⟨(sanitizeComponentName_order "<script>alert(1)</script>" (by decide) (by decide)
      (by decide)).1,
   (sanitizeComponentName_order "<script>alert(1)</script>" (by decide) (by decide)
      (by decide)).2.2⟩

/-! ## Theorems about the path validator -/

/-- Filesystem oracle on which nothing exists; used to instantiate claims
whose conclusion is independent of the filesystem. -/
def noFs : FsOracle :=
  { pathExists := fun _ => false, isSymlink := fun _ => false,
    realpath := fun p => some p }

/-- C7, counterexample: a path with an embedded NUL byte is rejected with
the dedicated `NULL_BYTE_DETECTED` code, not the claimed `InvalidInput`
(`INVALID_INPUT`) one. -/
theorem validatePath_nul_counterexample :
    (mkPathValidator "/" [ "/" ]).validatePath noFs "/" "a\x00b" false
      = .error .NULL_BYTE_DETECTED ∧
    (mkPathValidator "/" [ "/" ]).validatePath noFs "/" "a\x00b" false
      ≠ .error .INVALID_INPUT := by
  refine ⟨by decide, by decide⟩

/-- C7, amended: for every input path containing a NUL byte, `validatePath`
raises the NullByte error (`NULL_BYTE_DETECTED`), a kind the validator keeps
distinct from `INVALID_INPUT`, and it does so before any filesystem access:
the result is this error for every filesystem oracle `fso`. -/
theorem validatePath_nul (v : PathValidator) (fso : FsOracle)
    (cwd inputPath : String) (req : Bool)
    (h : containsNul inputPath = true) :
    v.validatePath fso cwd inputPath req = .error .NULL_BYTE_DETECTED := by
  have hne : ¬ inputPath = "" := by
    intro he
    rw [he] at h
    exact absurd h (by decide)
  unfold PathValidator.validatePath
  rw [if_neg hne, if_pos h]

/-- Witness for C7's amended theorem: the NUL-carrying path `"a\x00b"`. -/
theorem validatePath_nul_witness :
    containsNul "a\x00b" = true ∧
    (mkPathValidator "/" [ "/" ]).validatePath noFs "/" "a\x00b" false
      = .error .NULL_BYTE_DETECTED :=
  ⟨by decide, validatePath_nul (mkPathValidator "/" [ "/" ]) noFs "/" "a\x00b" false (by decide)⟩

/-- C3: whenever the resolved (and, when applicable, symlink-resolved) form
of a well-formed input path fails the containment test against every allowed
root — its relative path from each root starts with a parent-escape token or
is absolute — `validatePath` raises `PathTraversal`
(`PATH_TRAVERSAL_DETECTED`). -/
theorem validatePath_traversal (v : PathValidator) (fso : FsOracle)
    (cwd inputPath target : String) (req : Bool)
    (hne : ¬ inputPath = "") (hnul : ¬ containsNul inputPath = true)
    (hlen : ¬ inputPath.length > v.maxPathLength)
    (hres : v.resolvedTarget fso cwd inputPath = some target)
    (hout : ∀ root ∈ v.allowedRoots, isWithinRoot root target = false) :
    v.validatePath fso cwd inputPath req = .error .PATH_TRAVERSAL_DETECTED := by
  unfold PathValidator.validatePath
  rw [if_neg hne, if_neg hnul, if_neg hlen, hres]
  dsimp only
  rw [if_neg]
  intro hany
  obtain ⟨root, hmem, hwithin⟩ := List.any_eq_true.mp hany
  rw [hout root hmem] at hwithin
  exact absurd hwithin (by decide)

/-- Witness for C3 at the spec's own example: root `"/sandbox"` and input
`"/sandbox/../etc/passwd"`, which resolves to `"/etc/passwd"`. -/
theorem validatePath_traversal_witness :
    (mkPathValidator "/" [ "/sandbox" ]).validatePath noFs "/"
      "/sandbox/../etc/passwd" false = .error .PATH_TRAVERSAL_DETECTED :=
  validatePath_traversal (mkPathValidator "/" [ "/sandbox" ]) noFs "/"
    "/sandbox/../etc/passwd" "/etc/passwd" false (by decide) (by decide)
    (by decide) (by decide) (by decide)

/-! ## Theorems about the security context's entry point -/

/-- The common prefix of a list with itself is the whole list. -/
theorem commonPrefixLen_self (l : List (List Char)) : commonPrefixLen l l = l.length := by
  induction l with
  | nil => rfl
  | cons a as ih => simp [commonPrefixLen, ih]

/-- The relative path from a path to itself is empty. -/
theorem pathRelative_self (f : String) : pathRelative f f = "" := by
  unfold pathRelative
  dsimp only
  rw [commonPrefixLen_self, Nat.sub_self, List.drop_length]
  rfl

/-- Every path passes the containment test against itself as root. -/
theorem isWithinRoot_self (f : String) : isWithinRoot f f = true := by
  unfold isWithinRoot
  rw [pathRelative_self]
  decide

/-- The raw parameter bag of the end-to-end claim, parameterized by its root
path: target component `"Button"`, attribute `"onClick"`, nothing else. -/
def endToEndParams (rootDir : String) : RawParams :=
  { rootDir := some (.str rootDir), componentName := some (.str "Button"),
    propName := some (.str "onClick"), propValue := none,
    findMissing := none, verbose := none, includes := none }

/-- C1, counterexample: with allowed roots `["./test"]`, validating the bag
with root path `"../../etc"` raises the sanitizer's `DANGEROUS_PATTERN`
(`DangerousContent`) error — the parent-path deny pattern fires during
sanitization — and not the claimed `PathTraversal` error. -/
theorem validateAndSanitize_counterexample :
    validateAndSanitize defaultSanitizer (mkPathValidator "/repo" [ "./test" ])
      (repoFs "/repo") "/repo" (endToEndParams "../../etc")
      = .error (.san .DANGEROUS_PATTERN) ∧
    validateAndSanitize defaultSanitizer (mkPathValidator "/repo" [ "./test" ])
      (repoFs "/repo") "/repo" (endToEndParams "../../etc")
      ≠ .error (.path .PATH_TRAVERSAL_DETECTED) := by
  have h1 : validateAndSanitize defaultSanitizer (mkPathValidator "/repo" [ "./test" ])
      (repoFs "/repo") "/repo" (endToEndParams "../../etc")
      = .error (.san .DANGEROUS_PATTERN) := rfl
  refine ⟨h1, ?_⟩
  rw [h1]
  intro hc
  injection hc with hc'
  exact SecError.noConfusion hc'

/-- C1, amended: with allowed roots `["./test"]`, validating the bag with
root path `"../../etc"` raises `DangerousContent` (`DANGEROUS_PATTERN`) from
the sanitizer's parent-path deny pattern, before any path validation runs —
not `PathTraversal`; validating the bag with root path `"./test"` returns
the sanitized bag whose root path is the absolute resolved form of
`"./test"`, for any working directory and any filesystem on which that
resolved directory exists and is not a symbolic link. -/
theorem validateAndSanitize_endToEnd (cwd : String) (fso : FsOracle)
    (hex : fso.pathExists (pathResolve cwd "./test") = true)
    (hsym : fso.isSymlink (pathResolve cwd "./test") = false) :
    validateAndSanitize defaultSanitizer (mkPathValidator cwd [ "./test" ]) fso cwd
      (endToEndParams "../../etc") = .error (.san .DANGEROUS_PATTERN) ∧
    validateAndSanitize defaultSanitizer (mkPathValidator cwd [ "./test" ]) fso cwd
      (endToEndParams "./test")
      = .ok { rootDir := pathResolve cwd "./test", componentName := "Button",
              propName := "onClick", propValue := none, findMissing := none,
              verbose := none, includes := none } := by
  constructor
  · rfl
  · have hsan : defaultSanitizer.sanitizeAnalyzeParams (endToEndParams "./test")
        = .ok { rootDir := "./test", componentName := "Button", propName := "onClick",
                propValue := none, findMissing := none, verbose := none,
                includes := none } := rfl
    unfold validateAndSanitize
    rw [hsan]
    dsimp only
    unfold PathValidator.validatePath
    rw [show (mkPathValidator cwd [ "./test" ]).maxPathLength = 4096 from rfl]
    rw [if_neg (show ¬ ("./test" : String) = "" by decide),
        if_neg (show ¬ containsNul "./test" = true by decide),
        if_neg (show ¬ ("./test" : String).length > 4096 by decide)]
    unfold PathValidator.resolvedTarget
    rw [show (mkPathValidator cwd [ "./test" ]).resolveSymlinks = true from rfl]
    dsimp only
    rw [hex, hsym]
    rw [show (true && true && false) = false from rfl]
    rw [if_neg (show ¬ false = true by decide)]
    dsimp only
    rw [show (mkPathValidator cwd [ "./test" ]).allowedRoots
          = [ pathResolve cwd "./test" ] from rfl]
    rw [if_pos (show ([ pathResolve cwd "./test" ] : List String).any
          (fun root => isWithinRoot root (pathResolve cwd "./test")) = true by
        simp [isWithinRoot_self])]
    rw [show (mkPathValidator cwd [ "./test" ]).requireExists = false from rfl]
    rw [hex]
    rw [show ((false || true) && !true) = false from rfl, if_neg (show ¬ false = true by decide)]

/-- Witness for C1's amended theorem at the repository filesystem with
working directory `"/repo"`. -/
theorem validateAndSanitize_endToEnd_witness :
    validateAndSanitize defaultSanitizer (mkPathValidator "/repo" [ "./test" ])
      (repoFs "/repo") "/repo" (endToEndParams "../../etc")
      = .error (.san .DANGEROUS_PATTERN) ∧
    validateAndSanitize defaultSanitizer (mkPathValidator "/repo" [ "./test" ])
      (repoFs "/repo") "/repo" (endToEndParams "./test")
      = .ok { rootDir := pathResolve "/repo" "./test", componentName := "Button",
              propName := "onClick", propValue := none, findMissing := none,
              verbose := none, includes := none } :=
  validateAndSanitize_endToEnd "/repo" (repoFs "/repo") (by decide) (by decide)

/-! ## Theorems about the resource limiter -/

/-- C2: a 51-deep linear chain exceeds the default `maxASTDepth` of 50, yet
`validateAST` at the default starting depth 0 accepts it, returning its node
count and reporting `maxDepth` 0 — the inner walk threads a depth counter but
never compares it to the ceiling, contradicting the claimed
`ResourceExceeded` (`AST_TOO_DEEP`) rejection for deep trees. -/
theorem validateAST_deep_chain_passes :
    astDepth (chainAST 51) = 51 ∧
    defaultLimiterConfig.maxASTDepth = 50 ∧
    ResourceLimiter.validateAST defaultLimiterConfig (chainAST 51) 0
      = .ok { nodeCount := 52, maxDepth := 0 } := by
  refine ⟨by decide, rfl, by decide⟩

/-- Overwriting an existing key rewrites its value in place. -/
theorem mapLookup_overwrite (m : List (String × Nat)) (k : String) (v : Nat)
    (h : (mapLookup m k).isSome = true) :
    mapLookup (m.map (fun p => if p.1 = k then (k, v) else p)) k = some v := by
  induction m with
  | nil => simp [mapLookup] at h
  | cons p rest ih =>
      simp only [mapLookup] at h
      by_cases hp : p.1 = k
      · simp [mapLookup, hp]
      · rw [if_neg hp] at h
        simp only [List.map_cons, if_neg hp, mapLookup]
        exact ih h

/-- Appending a fresh key makes it found. -/
theorem mapLookup_append_fresh (m : List (String × Nat)) (k : String) (v : Nat)
    (h : mapLookup m k = none) :
    mapLookup (m ++ [ (k, v) ]) k = some v := by
  induction m with
  | nil => simp [mapLookup]
  | cons p rest ih =>
      simp only [mapLookup] at h
      by_cases hp : p.1 = k
      · rw [if_pos hp] at h; exact absurd h (by simp)
      · rw [if_neg hp] at h
        simp only [List.cons_append, mapLookup]
        rw [if_neg hp]
        exact ih h

/-- A `mapSet` makes its key map to its value. -/
theorem mapLookup_mapSet (m : List (String × Nat)) (k : String) (v : Nat) :
    mapLookup (mapSet m k v) k = some v := by
  unfold mapSet
  by_cases h : (mapLookup m k).isSome = true
  · rw [if_pos h]
    exact mapLookup_overwrite m k v h
  · rw [if_neg h]
    apply mapLookup_append_fresh
    cases hmk : mapLookup m k with
    | none => rfl
    | some x => rw [hmk] at h; exact absurd rfl h

/-- Adding a member already in a set is a no-op. -/
theorem setAdd_mem (s : List String) (x : String) (hx : x ∈ s) : setAdd s x = s := by
  unfold setAdd
  exact if_pos hx

/-- Adding a fresh member appends it. -/
theorem setAdd_not_mem (s : List String) (x : String) (hx : x ∉ s) :
    setAdd s x = s ++ [ x ] := by
  unfold setAdd
  exact if_neg hx

/-- Deleting an absent member is a no-op. -/
theorem setDelete_not_mem (s : List String) (x : String) (hx : x ∉ s) :
    setDelete s x = s := by
  unfold setDelete
  apply List.filter_eq_self.mpr
  intro y hy
  simp only [ne_eq, decide_eq_true_eq]
  intro he
  exact hx (he ▸ hy)

/-- Deleting a freshly appended member restores the set. -/
theorem setDelete_append_singleton (s : List String) (x : String) (hx : x ∉ s) :
    setDelete (s ++ [ x ]) x = s := by
  have h2 : setDelete [ x ] x = [] := by simp [setDelete]
  calc setDelete (s ++ [ x ]) x
      = setDelete s x ++ setDelete [ x ] x := by
        unfold setDelete
        rw [List.filter_append]
    _ = s ++ [] := by rw [setDelete_not_mem s x hx, h2]
    _ = s := by simp

/-- The deleted member is gone. -/
theorem setDelete_not_mem_self (s : List String) (x : String) :
    x ∉ setDelete s x := by
  unfold setDelete
  intro hmem
  have := (List.mem_filter.mp hmem).2
  simp at this

/-- The ledger produced by a successful admission: the identifier added to
the active set, its start time recorded. -/
def startedState (st : LimiterState) (i : String) (now : Nat) : LimiterState :=
  { st with currentOperations := setAdd st.currentOperations i,
            operationStartTimes := mapSet st.operationStartTimes i now }

/-- C10: admitting an identifier that is already active while the ledger is
below its ceiling succeeds, leaves the active set unchanged (the JS `Set`
add collapses into the existing slot), and overwrites the recorded start
time; one `endOperation` then removes the identifier entirely — the ledger
counts distinct identifiers, not admission calls. -/
theorem startOperation_duplicate_id (cfg : LimiterConfig) (st : LimiterState)
    (i : String) (now : Nat) (hmem : i ∈ st.currentOperations)
    (hlt : st.currentOperations.length < cfg.maxConcurrentOperations) :
    ∃ st', ResourceLimiter.startOperation cfg st i now = .ok st' ∧
      st'.currentOperations = st.currentOperations ∧
      mapLookup st'.operationStartTimes i = some now ∧
      (ResourceLimiter.endOperation st' i).currentOperations
        = st.currentOperations.filter (fun y => y ≠ i) ∧
      i ∉ (ResourceLimiter.endOperation st' i).currentOperations := by
  have hnotge : ¬ st.currentOperations.length ≥ cfg.maxConcurrentOperations := by omega
  refine ⟨startedState st i now, ?_, ?_, ?_, ?_, ?_⟩
  · unfold ResourceLimiter.startOperation
    rw [if_neg hnotge]
    rfl
  · exact setAdd_mem st.currentOperations i hmem
  · exact mapLookup_mapSet st.operationStartTimes i now
  · unfold ResourceLimiter.endOperation startedState
    dsimp only
    rw [setAdd_mem st.currentOperations i hmem]
    rfl
  · unfold ResourceLimiter.endOperation startedState
    dsimp only
    exact setDelete_not_mem_self _ i

/-- Ledger state with one active operation, exercising C10 concretely. -/
def demoState : LimiterState :=
  { currentOperations := [ "a" ], operationStartTimes := [ ("a", 3) ],
    totalFilesProcessed := 0, totalSizeProcessed := 0, directoriesScanned := 0 }

/-- Witness for C10 at a ledger already holding `"a"`. -/
theorem startOperation_duplicate_id_witness :
    ∃ st', ResourceLimiter.startOperation defaultLimiterConfig demoState "a" 7 = .ok st' ∧
      st'.currentOperations = demoState.currentOperations ∧
      mapLookup st'.operationStartTimes "a" = some 7 ∧
      (ResourceLimiter.endOperation st' "a").currentOperations
        = demoState.currentOperations.filter (fun y => y ≠ "a") ∧
      "a" ∉ (ResourceLimiter.endOperation st' "a").currentOperations :=
  startOperation_duplicate_id defaultLimiterConfig demoState "a" 7 (by decide) (by decide)

/-- Iterated admission: `startOperation` once per identifier, stopping at the
first rejection — the shape of a caller issuing admissions back to back. -/
def startMany (cfg : LimiterConfig) (now : Nat) :
    LimiterState → List String → Except ResErr LimiterState
  | st, [] => .ok st
  | st, i :: rest =>
      match ResourceLimiter.startOperation cfg st i now with
      | .error e => .error e
      | .ok st' => startMany cfg now st' rest

/-- Iterated admission splits over list concatenation. -/
theorem startMany_append (cfg : LimiterConfig) (now : Nat) (a b : List String) :
    ∀ st, startMany cfg now st (a ++ b) =
      match startMany cfg now st a with
      | .error e => .error e
      | .ok st' => startMany cfg now st' b := by
  induction a with
  | nil => intro st; rfl
  | cons i rest ih =>
      intro st
      simp only [List.cons_append, startMany]
      cases ResourceLimiter.startOperation cfg st i now with
      | error e => rfl
      | ok st' => exact ih st'

/-- Fresh distinct identifiers within remaining capacity are all admitted,
and land appended to the active set in order. -/
theorem startMany_ok (cfg : LimiterConfig) (now : Nat) :
    ∀ (ids : List String) (st : LimiterState),
      st.currentOperations.length + ids.length ≤ cfg.maxConcurrentOperations →
      (∀ i ∈ ids, i ∉ st.currentOperations) → ids.Nodup →
      ∃ st', startMany cfg now st ids = .ok st' ∧
        st'.currentOperations = st.currentOperations ++ ids := by
  intro ids
  induction ids with
  | nil => intro st _ _ _; exact ⟨st, rfl, by simp⟩
  | cons i rest ih =>
      intro st hlen hfresh hnd
      have hival : i ∉ st.currentOperations := hfresh i (by simp)
      have hnotge : ¬ st.currentOperations.length ≥ cfg.maxConcurrentOperations := by
        simp only [List.length_cons] at hlen
        omega
      have hstep : ResourceLimiter.startOperation cfg st i now = .ok (startedState st i now) := by
        unfold ResourceLimiter.startOperation
        rw [if_neg hnotge]
        rfl
      have hops : (startedState st i now).currentOperations = st.currentOperations ++ [ i ] := by
        unfold startedState
        dsimp only
        exact setAdd_not_mem st.currentOperations i hival
      obtain ⟨st', h1, h2⟩ := ih (startedState st i now)
        (by rw [hops]
            simp only [List.length_append, List.length_cons, List.length_nil] at hlen ⊢
            omega)
        (by intro j hj
            rw [hops]
            simp only [List.mem_append, List.mem_singleton]
            rintro (hjs | rfl)
            · exact hfresh j (by simp [hj]) hjs
            · exact (List.nodup_cons.mp hnd).1 hj)
        (List.nodup_cons.mp hnd).2
      refine ⟨st', ?_, ?_⟩
      · simp only [startMany, hstep]
        exact h1
      · rw [h2, hops]
        simp

/-- Adding to a set grows it by at most one element. -/
theorem setAdd_length (s : List String) (x : String) :
    (setAdd s x).length ≤ s.length + 1 := by
  unfold setAdd
  split
  · omega
  · simp

/-- Deleting a member of a duplicate-free set shrinks it by exactly one. -/
theorem length_setDelete_add_one (s : List String) (x : String) :
    ∀ (_ : s.Nodup) (_ : x ∈ s), (setDelete s x).length + 1 = s.length := by
  induction s with
  | nil => intro _ hm; cases hm
  | cons a rest ih =>
      intro hnd hm
      obtain ⟨hna, hndr⟩ := List.nodup_cons.mp hnd
      by_cases hax : a = x
      · subst hax
        have h1 : setDelete (a :: rest) a = setDelete rest a := by
          unfold setDelete
          rw [List.filter_cons]
          simp
        rw [h1, setDelete_not_mem rest a hna]
        simp
      · have hxr : x ∈ rest := by
          cases List.mem_cons.mp hm with
          | inl h => exact absurd h.symm hax
          | inr h => exact h
        have h1 : setDelete (a :: rest) x = a :: setDelete rest x := by
          unfold setDelete
          rw [List.filter_cons]
          simp [hax]
        rw [h1]
        have := ih hndr hxr
        simp only [List.length_cons]
        omega

/-- C4: from an empty ledger with ceiling `N = maxConcurrentOperations`,
admitting `N + 1` distinct identifiers without any release admits the first
`N` and rejects exactly the `(N+1)`th with `ResourceExceeded`
(`TOO_MANY_OPERATIONS`); after one release a further admission succeeds; and
every admission or release preserves the invariant
`|activeOperations| ≤ maxConcurrentOperations`. -/
theorem startOperation_counting_semaphore (cfg : LimiterConfig) (now : Nat)
    (ids : List String) (hnd : ids.Nodup)
    (hlen : ids.length = cfg.maxConcurrentOperations + 1) :
    (∃ stN,
       startMany cfg now emptyLimiterState (ids.take cfg.maxConcurrentOperations)
         = .ok stN ∧
       stN.currentOperations = ids.take cfg.maxConcurrentOperations ∧
       startMany cfg now emptyLimiterState ids
         = .error { code := .TOO_MANY_OPERATIONS,
                    limit := some cfg.maxConcurrentOperations,
                    current := some cfg.maxConcurrentOperations } ∧
       ∀ j ∈ stN.currentOperations, ∀ k : String,
         ∃ st', ResourceLimiter.startOperation cfg (ResourceLimiter.endOperation stN j) k now
                  = .ok st') ∧
    ∀ (st : LimiterState) (i : String),
      st.currentOperations.length ≤ cfg.maxConcurrentOperations →
      (∀ st', ResourceLimiter.startOperation cfg st i now = .ok st' →
         st'.currentOperations.length ≤ cfg.maxConcurrentOperations) ∧
      (ResourceLimiter.endOperation st i).currentOperations.length
        ≤ cfg.maxConcurrentOperations := by
  constructor
  · have htake_len : (ids.take cfg.maxConcurrentOperations).length
        = cfg.maxConcurrentOperations := by
      rw [List.length_take, hlen]
      omega
    have htake_nd : (ids.take cfg.maxConcurrentOperations).Nodup :=
      hnd.sublist (List.take_sublist _ _)
    obtain ⟨stN, hok, hops⟩ := startMany_ok cfg now (ids.take cfg.maxConcurrentOperations)
      emptyLimiterState
      (by simp [emptyLimiterState, htake_len])
      (by intro i _; simp [emptyLimiterState])
      htake_nd
    have hops' : stN.currentOperations = ids.take cfg.maxConcurrentOperations := by
      rw [hops]
      simp [emptyLimiterState]
    refine ⟨stN, hok, hops', ?_, ?_⟩
    · obtain ⟨x, hx⟩ : ∃ x, ids.drop cfg.maxConcurrentOperations = [ x ] := by
        have hdlen : (ids.drop cfg.maxConcurrentOperations).length = 1 := by
          rw [List.length_drop, hlen]
          omega
        cases hd : ids.drop cfg.maxConcurrentOperations with
        | nil => rw [hd] at hdlen; simp at hdlen
        | cons y ys =>
            rw [hd] at hdlen
            simp only [List.length_cons] at hdlen
            have hy : ys = [] := List.length_eq_zero.mp (by omega)
            exact ⟨y, by rw [hy]⟩
      have hids : ids.take cfg.maxConcurrentOperations ++ [ x ] = ids := by
        rw [← hx]
        exact List.take_append_drop _ ids
      have hge : stN.currentOperations.length ≥ cfg.maxConcurrentOperations := by
        rw [hops', htake_len]
      rw [← hids, startMany_append cfg now _ [ x ] emptyLimiterState, hok]
      dsimp only
      simp only [startMany]
      unfold ResourceLimiter.startOperation
      rw [if_pos hge, hops', htake_len]
    · intro j hj k
      have hndN : stN.currentOperations.Nodup := by
        rw [hops']
        exact htake_nd
      have hlenN : stN.currentOperations.length = cfg.maxConcurrentOperations := by
        rw [hops', htake_len]
      have hdel : (setDelete stN.currentOperations j).length + 1
          = stN.currentOperations.length := length_setDelete_add_one _ j hndN hj
      have hlt : ¬ (setDelete stN.currentOperations j).length
          ≥ cfg.maxConcurrentOperations := by omega
      have hlt2 : ¬ (ResourceLimiter.endOperation stN j).currentOperations.length
          ≥ cfg.maxConcurrentOperations := hlt
      refine ⟨startedState (ResourceLimiter.endOperation stN j) k now, ?_⟩
      unfold ResourceLimiter.startOperation
      rw [if_neg hlt2]
      rfl
  · intro st i hle
    constructor
    · intro st' h
      unfold ResourceLimiter.startOperation at h
      split at h
      · exact absurd h (by simp)
      · rename_i hless
        injection h with h'
        rw [← h']
        dsimp only
        have := setAdd_length st.currentOperations i
        omega
    · unfold ResourceLimiter.endOperation
      dsimp only
      have : (setDelete st.currentOperations i).length ≤ st.currentOperations.length :=
        List.length_filter_le _ _
      omega

/-- Ceilings with a concurrency limit of two, exercising C4 concretely. -/
def smallOpsConfig : LimiterConfig :=
  { defaultLimiterConfig with maxConcurrentOperations := 2 }

/-- Witness for C4: with ceiling 2, the identifiers `"a"`, `"b"`, `"c"` are
admitted, admitted, rejected. -/
theorem startOperation_counting_semaphore_witness :
    startMany smallOpsConfig 0 emptyLimiterState [ "a", "b", "c" ]
      = .error { code := .TOO_MANY_OPERATIONS, limit := some 2, current := some 2 } := by
  obtain ⟨⟨stN, h1, h2, h3, h4⟩, hinv⟩ :=
    startOperation_counting_semaphore smallOpsConfig 0 [ "a", "b", "c" ] (by decide) rfl
  exact h3

/-- Iterated `recordFileProcessed`, stopping at the first rejection and
returning the ledger alongside the possible error. -/
def recordMany (cfg : LimiterConfig) : LimiterState → List Nat → LimiterState × Option ResErr
  | st, [] => (st, none)
  | st, s :: rest =>
      match ResourceLimiter.recordFileProcessed cfg st s with
      | (st', some e) => (st', some e)
      | (st', none) => recordMany cfg st' rest

/-- Under the file-count ceiling every record call succeeds, and the two
counters advance by the number of calls and the total of the sizes. -/
theorem recordMany_ok (cfg : LimiterConfig) :
    ∀ (sizes : List Nat) (st : LimiterState),
      st.totalFilesProcessed + sizes.length ≤ cfg.maxFileCount →
      recordMany cfg st sizes =
        ({ st with totalFilesProcessed := st.totalFilesProcessed + sizes.length,
                   totalSizeProcessed := st.totalSizeProcessed + sizes.sum }, none) := by
  intro sizes
  induction sizes with
  | nil =>
      intro st _
      simp [recordMany]
  | cons s rest ih =>
      intro st h
      obtain ⟨ops, times, f, b, d⟩ := st
      simp only [List.length_cons] at h
      have hnot : ¬ f + 1 > cfg.maxFileCount := by omega
      have hrec : ResourceLimiter.recordFileProcessed cfg ⟨ops, times, f, b, d⟩ s
          = (⟨ops, times, f + 1, b + s, d⟩, none) := by
        unfold ResourceLimiter.recordFileProcessed
        dsimp only
        rw [if_neg hnot]
      simp only [recordMany, hrec]
      rw [ih ⟨ops, times, f + 1, b + s, d⟩ (by dsimp only; omega)]
      simp only [Prod.mk.injEq, LimiterState.mk.injEq, List.sum_cons, List.length_cons,
                 true_and, and_true]
      omega

/-- When the calls would cross the file-count ceiling, iteration stops at the
crossing call with `TOO_MANY_FILES`, and that call is still counted. -/
theorem recordMany_crossing (cfg : LimiterConfig) :
    ∀ (sizes : List Nat) (st : LimiterState),
      st.totalFilesProcessed ≤ cfg.maxFileCount →
      st.totalFilesProcessed + sizes.length = cfg.maxFileCount + 1 →
      (recordMany cfg st sizes).2
          = some { code := .TOO_MANY_FILES, limit := some cfg.maxFileCount,
                   current := some (cfg.maxFileCount + 1) } ∧
      (recordMany cfg st sizes).1.totalFilesProcessed = cfg.maxFileCount + 1 := by
  intro sizes
  induction sizes with
  | nil =>
      intro st h1 h2
      simp only [List.length_nil] at h2
      omega
  | cons s rest ih =>
      intro st h1 h2
      obtain ⟨ops, times, f, b, d⟩ := st
      simp only [List.length_cons] at h1 h2 ⊢
      by_cases hcross : f + 1 > cfg.maxFileCount
      · have hst : f = cfg.maxFileCount := by omega
        subst hst
        have hrec : ResourceLimiter.recordFileProcessed cfg
              ⟨ops, times, cfg.maxFileCount, b, d⟩ s
            = (⟨ops, times, cfg.maxFileCount + 1, b + s, d⟩,
               some { code := .TOO_MANY_FILES, limit := some cfg.maxFileCount,
                      current := some (cfg.maxFileCount + 1) }) := by
          unfold ResourceLimiter.recordFileProcessed
          dsimp only
          rw [if_pos hcross]
        simp only [recordMany, hrec]
        exact ⟨trivial, trivial⟩
      · have hrec : ResourceLimiter.recordFileProcessed cfg ⟨ops, times, f, b, d⟩ s
            = (⟨ops, times, f + 1, b + s, d⟩, none) := by
          unfold ResourceLimiter.recordFileProcessed
          dsimp only
          rw [if_neg hcross]
        simp only [recordMany, hrec]
        exact ih ⟨ops, times, f + 1, b + s, d⟩ (by dsimp only; omega) (by dsimp only; omega)

/-- C5: starting from zeroed counters, `maxFileCount + 1` record calls raise
`ResourceExceeded` (`TOO_MANY_FILES`) exactly on the crossing call, which is
still counted because the increment precedes the ceiling check; after `K`
successful calls the cumulative bytes equal the sum of the sizes (and the
file counter equals `K`); and both counters are zero right after `reset`. -/
theorem recordFileProcessed_ceiling (cfg : LimiterConfig) (st0 : LimiterState)
    (hf : st0.totalFilesProcessed = 0) (hb : st0.totalSizeProcessed = 0)
    (sizes : List Nat) (hlen : sizes.length = cfg.maxFileCount + 1) :
    ((recordMany cfg st0 sizes).2
        = some { code := .TOO_MANY_FILES, limit := some cfg.maxFileCount,
                 current := some (cfg.maxFileCount + 1) } ∧
     (recordMany cfg st0 sizes).1.totalFilesProcessed = cfg.maxFileCount + 1) ∧
    (∀ sizes' : List Nat, sizes'.length ≤ cfg.maxFileCount →
       (recordMany cfg st0 sizes').2 = none ∧
       (recordMany cfg st0 sizes').1.totalFilesProcessed = sizes'.length ∧
       (recordMany cfg st0 sizes').1.totalSizeProcessed = sizes'.sum) ∧
    (∀ st : LimiterState,
       (ResourceLimiter.resetUsage st).totalFilesProcessed = 0 ∧
       (ResourceLimiter.resetUsage st).totalSizeProcessed = 0) := by
  refine ⟨?_, ?_, ?_⟩
  · exact recordMany_crossing cfg sizes st0 (by omega) (by omega)
  · intro sizes' hlen'
    rw [recordMany_ok cfg sizes' st0 (by omega)]
    refine ⟨rfl, by dsimp only; omega, by dsimp only; omega⟩
  · intro st
    exact ⟨rfl, rfl⟩

/-- Ceilings with a file-count limit of two, exercising C5 concretely. -/
def smallFilesConfig : LimiterConfig :=
  { defaultLimiterConfig with maxFileCount := 2 }

/-- Witness for C5: three record calls of sizes 10, 20, 30 against ceiling 2
reject on the third call with it still counted, two calls accumulate 30
bytes, and `reset` zeroes both counters. -/
theorem recordFileProcessed_ceiling_witness :
    (recordMany smallFilesConfig emptyLimiterState [ 10, 20, 30 ]).2
      = some { code := .TOO_MANY_FILES, limit := some 2, current := some 3 } ∧
    (recordMany smallFilesConfig emptyLimiterState [ 10, 20 ]).1.totalSizeProcessed = 30 := by
  obtain ⟨⟨h1, h2⟩, h3, h4⟩ :=
    recordFileProcessed_ceiling smallFilesConfig emptyLimiterState rfl rfl
      [ 10, 20, 30 ] rfl
  exact ⟨h1, ((h3 [ 10, 20 ] (by decide)).2.2).trans rfl⟩

/-! ## Theorems about the sandboxed parser -/

/-- The `try`-block body of `parseFile` never touches the active-operation
set: only the throughput counters can change. -/
theorem parseFileTry_ops (cfg : LimiterConfig) (st1 : LimiterState) (code : String)
    (o : Option Bool) (orc : ParseOracles) :
    (SandboxedParser.parseFileTry cfg st1 code o orc).2.currentOperations
      = st1.currentOperations := by
  unfold SandboxedParser.parseFileTry
  dsimp only
  split
  · rfl
  · split
    · rfl
    · split
      · rfl
      · split
        · rfl
        · split
          · rename_i st2 e heq
            have h1 : (ResourceLimiter.recordFileProcessed cfg st1 code.length).1 = st2 :=
              congrArg Prod.fst heq
            rw [← h1]
            rfl
          · rename_i st2 heq
            have h1 : (ResourceLimiter.recordFileProcessed cfg st1 code.length).1 = st2 :=
              congrArg Prod.fst heq
            rw [← h1]
            rfl

/-- C6: one `parseFile` call registers exactly one limiter operation on
entry and releases it on every exit path — admission failure, size-check
failure, safety-precheck failure, parse failure, structural-validation
failure, record failure or success — so a completed call never leaves its
operation identifier in the active-operation set, and the active set is
exactly what it was before the call. -/
theorem parseFile_releases_operation (cfg : LimiterConfig) (st : LimiterState)
    (opId : String) (now : Nat) (code : String) (inMemoryOpt : Option Bool)
    (orc : ParseOracles) (hfresh : opId ∉ st.currentOperations) :
    (SandboxedParser.parseFile cfg st opId now code inMemoryOpt orc).2.currentOperations
      = st.currentOperations ∧
    opId ∉ (SandboxedParser.parseFile cfg st opId now code inMemoryOpt orc).2.currentOperations := by
  have hmain : (SandboxedParser.parseFile cfg st opId now code
      inMemoryOpt orc).2.currentOperations = st.currentOperations := by
    unfold SandboxedParser.parseFile
    cases hso : ResourceLimiter.startOperation cfg st opId now with
    | error e => rfl
    | ok st1 =>
        have hops1 : st1.currentOperations = st.currentOperations ++ [ opId ] := by
          unfold ResourceLimiter.startOperation at hso
          split at hso
          · exact absurd hso (by simp)
          · injection hso with h
            rw [← h]
            dsimp only
            exact setAdd_not_mem st.currentOperations opId hfresh
        show (ResourceLimiter.endOperation
            (SandboxedParser.parseFileTry cfg st1 code inMemoryOpt orc).2
            opId).currentOperations = st.currentOperations
        unfold ResourceLimiter.endOperation
        dsimp only
        rw [parseFileTry_ops, hops1]
        exact setDelete_append_singleton st.currentOperations opId hfresh
  exact ⟨hmain, by rw [hmain]; exact hfresh⟩

/-- External effects of a trivial in-memory parse: nothing on disk, the
parser returns a childless tree. -/
def demoOracles : ParseOracles :=
  { fileExists := false, statSize := none, parseOutcome := .ok (.mk []) }

/-- Witness for C6: a concrete in-memory parse from an empty ledger leaves
the active-operation set empty. -/
theorem parseFile_releases_operation_witness :
    (SandboxedParser.parseFile defaultLimiterConfig emptyLimiterState "op1" 0 "x"
        none demoOracles).2.currentOperations = emptyLimiterState.currentOperations ∧
    "op1" ∉ (SandboxedParser.parseFile defaultLimiterConfig emptyLimiterState "op1" 0 "x"
        none demoOracles).2.currentOperations :=
  parseFile_releases_operation defaultLimiterConfig emptyLimiterState "op1" 0 "x"
    none demoOracles (by decide)
